import Mathlib

/-!
Verification of the day/night environmental state machine of the
Three.js-Ocean-Scene repository.

Modelling conventions: JavaScript numbers are modelled as exact rationals
(ℚ), reading numeric literals at face value (so Math.PI becomes the rational
3.141592653589793, the value of its decimal literal); JavaScript module-level
mutable variables become fields of explicit state structures, and each
function that mutates them becomes a state-passing function; Math.random()
draws are modelled by an oracle g : ℕ → ℚ whose values are assumed to lie in
[0, 1); Math.sin / Math.cos are passed in as abstract functions where they
only perturb positions.  Per-frame Update functions take the frame delta
(deltaTime) as an argument.
-/

namespace OceanScene

/-- Model of the JavaScript constant Math.PI (decimal literal read exactly). -/
def mathPI : ℚ := 3.141592653589793

/-- Model of JavaScript Math.sign: 1 for positive, -1 for negative, 0 for zero. -/
def mathSign (x : ℚ) : ℚ := if 0 < x then 1 else if x < 0 then -1 else 0

lemma mathSign_of_pos {x : ℚ} (h : 0 < x) : mathSign x = 1 := by
  simp [mathSign, h]

lemma mathSign_of_neg {x : ℚ} (h : x < 0) : mathSign x = -1 := by
  have h' : ¬ 0 < x := not_lt.mpr h.le
  simp [mathSign, h, h']

/-- Shared overshoot-clamp arithmetic: moving from a toward t by a step of
size at most the remaining distance shrinks the remaining distance by
exactly that step. -/
lemma approach_abs (t a step : ℚ) (h0 : 0 ≤ step) (h1 : step ≤ |t - a|) :
    |t - (a + step * mathSign (t - a))| = |t - a| - step := by
  rcases lt_trichotomy (t - a) 0 with h | h | h
  · rw [mathSign_of_neg h]
    rw [abs_of_neg h] at h1
    have e : t - (a + step * (-1)) = (t - a) + step := by ring
    rw [e, abs_of_nonpos (by linarith), abs_of_neg h]
    ring
  · have habs : |t - a| = 0 := by rw [h, abs_zero]
    have hs : step = 0 := le_antisymm (habs ▸ h1) h0
    have e : t - (a + step * mathSign (t - a)) = t - a := by rw [hs]; ring
    rw [e, hs, sub_zero]
  · rw [mathSign_of_pos h]
    rw [abs_of_pos h] at h1
    have e : t - (a + step * 1) = (t - a) - step := by ring
    rw [e, abs_of_nonneg (by linarith), abs_of_pos h]

/-! ## Skybox.js : the day/night controller -/

namespace Skybox

/-- Source constant transitionSpeed = 0.65 (Skybox.js). -/
def transitionSpeed : ℚ := 0.65

/-- Source constant dayAngle = Math.PI * 0.35. -/
def dayAngle : ℚ := mathPI * 0.35

/-- Source constant nightAngle = Math.PI * 0.75. -/
def nightAngle : ℚ := mathPI * 0.75

/-- The module-level mutable state of Skybox.js that drives the day/night
machine: angle, targetAngle, isDay, isTransitioning. -/
structure SkyState where
  angle : ℚ
  targetAngle : ℚ
  isDay : Bool
  isTransitioning : Bool
deriving DecidableEq

/-- Module initialisation of Skybox.js:
let angle = -1; let targetAngle = dayAngle; let isTransitioning = false;
let isDay = true. -/
def initState : SkyState :=
  { angle := -1, targetAngle := dayAngle, isDay := true, isTransitioning := false }

/-- Skybox.Start(): sets angle = dayAngle (geometry setup is out of model). -/
def startSky (s : SkyState) : SkyState := { s with angle := dayAngle }

/-- toggleDayNight() from Skybox.js; the first component is the returned
boolean (the new isDay). -/
def toggleDayNight (s : SkyState) : Bool × SkyState :=
  let isDay := !s.isDay
  (isDay,
    { s with
      isDay := isDay
      targetAngle := if isDay then dayAngle else nightAngle
      isTransitioning := true })

/-- The state effect of toggleDayNight(). -/
def toggleSky (s : SkyState) : SkyState := (toggleDayNight s).2

/-- The state-machine part of Skybox.Update() (Skybox.js lines 165-181),
with deltaTime passed as dt; the rotation-matrix/uniform writes derived from
angle are out of model. -/
def skyboxUpdate (dt : ℚ) (s : SkyState) : SkyState :=
  if s.isTransitioning then
    let diff := s.targetAngle - s.angle
    let step := dt * transitionSpeed
    if |diff| ≤ step then
      { s with angle := s.targetAngle, isTransitioning := false }
    else
      { s with angle := s.angle + step * mathSign diff }
  else s

/-- Folding Skybox.Update over a sequence of frame deltas. -/
def skyAdvanceAll (dts : List ℚ) (s : SkyState) : SkyState :=
  dts.foldl (fun t d => skyboxUpdate d t) s

/-- External events that can reach the controller: a toggleDayNight call or
an Update frame with a given delta. -/
inductive SkyEvent where
  | toggle : SkyEvent
  | advance : ℚ → SkyEvent

/-- Frame deltas of advance events are non-negative; toggles carry no data. -/
def SkyEvent.dtOk : SkyEvent → Prop
  | .toggle => True
  | .advance dt => 0 ≤ dt

def applySkyEvent (s : SkyState) : SkyEvent → SkyState
  | .toggle => toggleSky s
  | .advance dt => skyboxUpdate dt s

/-- Running a sequence of toggle/advance events from a start state. -/
def runSkyEvents (s : SkyState) (es : List SkyEvent) : SkyState :=
  es.foldl applySkyEvent s

lemma dayAngle_lt_nightAngle : dayAngle < nightAngle := by
  norm_num [dayAngle, nightAngle, mathPI]

lemma skyboxUpdate_settled {s : SkyState} (h : s.isTransitioning = false)
    (dt : ℚ) : skyboxUpdate dt s = s := by
  simp [skyboxUpdate, h]

lemma skyboxUpdate_targetAngle (dt : ℚ) (s : SkyState) :
    (skyboxUpdate dt s).targetAngle = s.targetAngle := by
  simp only [skyboxUpdate]
  split
  · split <;> rfl
  · rfl

lemma skyboxUpdate_isDay (dt : ℚ) (s : SkyState) :
    (skyboxUpdate dt s).isDay = s.isDay := by
  simp only [skyboxUpdate]
  split
  · split <;> rfl
  · rfl

/-- The remaining distance to the target shrinks by exactly the clamped
step: no overshoot. -/
lemma skyboxUpdate_remaining {s : SkyState} (h : s.isTransitioning = true)
    {dt : ℚ} (hdt : 0 ≤ dt) :
    |s.targetAngle - (skyboxUpdate dt s).angle| =
      max (|s.targetAngle - s.angle| - dt * transitionSpeed) 0 := by
  have hstep : 0 ≤ dt * transitionSpeed := by
    have : (0:ℚ) ≤ transitionSpeed := by norm_num [transitionSpeed]
    exact mul_nonneg hdt this
  unfold skyboxUpdate
  rw [h]
  by_cases hc : |s.targetAngle - s.angle| ≤ dt * transitionSpeed
  · rw [if_pos rfl, if_pos hc]
    simp only []
    rw [sub_self, abs_zero, max_eq_right (by linarith)]
  · rw [if_pos rfl, if_neg hc]
    push_neg at hc
    simp only []
    rw [approach_abs _ _ _ hstep hc.le,
      max_eq_left (by linarith)]

/-- While transitioning, the updated angle stays between the old angle and
the target: the angle never crosses the target. -/
lemma skyboxUpdate_between {s : SkyState} (h : s.isTransitioning = true)
    {dt : ℚ} (hdt : 0 ≤ dt) :
    min s.angle s.targetAngle ≤ (skyboxUpdate dt s).angle ∧
      (skyboxUpdate dt s).angle ≤ max s.angle s.targetAngle := by
  have hstep : 0 ≤ dt * transitionSpeed := by
    have : (0:ℚ) ≤ transitionSpeed := by norm_num [transitionSpeed]
    exact mul_nonneg hdt this
  unfold skyboxUpdate
  rw [h]
  by_cases hc : |s.targetAngle - s.angle| ≤ dt * transitionSpeed
  · rw [if_pos rfl, if_pos hc]
    exact ⟨min_le_right _ _, le_max_right _ _⟩
  · rw [if_pos rfl, if_neg hc]
    push_neg at hc
    rcases lt_trichotomy (s.targetAngle - s.angle) 0 with hd | hd | hd
    · rw [abs_of_neg hd] at hc
      rw [mathSign_of_neg hd]
      constructor
      · simp only []
        calc min s.angle s.targetAngle ≤ s.targetAngle := min_le_right _ _
        _ ≤ s.angle + dt * transitionSpeed * (-1) := by linarith
      · simp only []
        calc s.angle + dt * transitionSpeed * (-1) ≤ s.angle := by linarith
        _ ≤ max s.angle s.targetAngle := le_max_left _ _
    · exfalso
      rw [hd, abs_zero] at hc
      linarith
    · rw [abs_of_pos hd] at hc
      rw [mathSign_of_pos hd]
      constructor
      · simp only []
        calc min s.angle s.targetAngle ≤ s.angle := min_le_left _ _
        _ ≤ s.angle + dt * transitionSpeed * 1 := by linarith
      · simp only []
        calc s.angle + dt * transitionSpeed * 1 ≤ s.targetAngle := by linarith
        _ ≤ max s.angle s.targetAngle := le_max_right _ _

/-- Once the cumulative step budget covers the remaining distance, the fold
of updates lands exactly on the target with the transition flag cleared. -/
lemma skyAdvanceAll_reaches :
    ∀ (dts : List ℚ) (s : SkyState), (∀ d ∈ dts, 0 ≤ d) →
      s.isTransitioning = true → 0 < |s.targetAngle - s.angle| →
      |s.targetAngle - s.angle| ≤ transitionSpeed * dts.sum →
      skyAdvanceAll dts s =
        { angle := s.targetAngle, targetAngle := s.targetAngle,
          isDay := s.isDay, isTransitioning := false } := by
  intro dts
  induction dts with
  | nil =>
    intro s _ _ hpos hsum
    exfalso
    simp [List.sum_nil] at hsum
    rw [hsum] at hpos
    simp at hpos
  | cons d rest ih =>
    intro s hnn htr hpos hsum
    have hd : 0 ≤ d := hnn d (List.mem_cons_self d rest)
    have hrest : ∀ x ∈ rest, 0 ≤ x := fun x hx => hnn x (List.mem_cons_of_mem d hx)
    have hrestsum : 0 ≤ rest.sum := List.sum_nonneg hrest
    have hspeed : (0:ℚ) < transitionSpeed := by norm_num [transitionSpeed]
    rw [skyAdvanceAll, List.foldl_cons]
    by_cases hc : |s.targetAngle - s.angle| ≤ d * transitionSpeed
    · have hupd : skyboxUpdate d s =
          { s with angle := s.targetAngle, isTransitioning := false } := by
        unfold skyboxUpdate
        rw [htr, if_pos rfl, if_pos hc]
      rw [hupd]
      have hfix : ∀ (l : List ℚ) (t : SkyState), t.isTransitioning = false →
          l.foldl (fun u x => skyboxUpdate x u) t = t := by
        intro l
        induction l with
        | nil => intro t _; rfl
        | cons x xs ihl =>
          intro t ht
          rw [List.foldl_cons, skyboxUpdate_settled ht]
          exact ihl t ht
      exact hfix rest _ rfl
    · push_neg at hc
      have hrem : |s.targetAngle - (skyboxUpdate d s).angle| =
          |s.targetAngle - s.angle| - d * transitionSpeed := by
        rw [skyboxUpdate_remaining htr hd,
          max_eq_left (by linarith)]
      have htr' : (skyboxUpdate d s).isTransitioning = true := by
        unfold skyboxUpdate
        rw [htr, if_pos rfl, if_neg (not_le.mpr hc)]
      have htg := skyboxUpdate_targetAngle d s
      have hid := skyboxUpdate_isDay d s
      have hpos' : 0 < |s.targetAngle - (skyboxUpdate d s).angle| := by
        rw [hrem]; linarith
      have hsum' : |s.targetAngle - (skyboxUpdate d s).angle| ≤
          transitionSpeed * rest.sum := by
        rw [hrem]
        rw [List.sum_cons, mul_add] at hsum
        linarith [mul_comm d transitionSpeed]
      have := ih (skyboxUpdate d s) hrest htr' (htg ▸ hpos') (htg ▸ hsum')
      rw [skyAdvanceAll] at this
      rw [this, htg, hid]

/-- Invariant preservation along an event run. -/
lemma runSkyEvents_invariant (P : SkyState → Prop) :
    ∀ (es : List SkyEvent) (s : SkyState), P s →
      (∀ t e, e ∈ es → P t → P (applySkyEvent t e)) →
      P (runSkyEvents s es) := by
  intro es
  induction es with
  | nil => intro s hs _; exact hs
  | cons e rest ih =>
    intro s hs hstep
    rw [runSkyEvents, List.foldl_cons]
    exact ih _ (hstep s e (List.mem_cons_self e rest) hs)
      (fun t e' he' ht => hstep t e' (List.mem_cons_of_mem e he') ht)

lemma toggled_day_state :
    toggleSky (startSky initState) =
      { angle := dayAngle, targetAngle := nightAngle,
        isDay := false, isTransitioning := true } := rfl

lemma scenario_gap_pos : 0 < |nightAngle - dayAngle| := by
  rw [abs_of_pos (by norm_num [nightAngle, dayAngle, mathPI])]
  norm_num [nightAngle, dayAngle, mathPI]

/-- Claim C1: the day/night advance step never moves angle past targetAngle:
while transitioning it snaps exactly onto targetAngle (clearing
isTransitioning) when the remaining distance is at most transitionSpeed*dt
and otherwise adds sign(targetAngle-angle)*transitionSpeed*dt, the remaining
distance shrinks by exactly the clamped step and the angle stays between its
old value and the target; once cumulative transitionSpeed*Σdt covers the
initial distance (0.4π in the day→night scenario) the state is exactly
angle = targetAngle with isTransitioning = false, and advance calls while
settled leave the state unchanged. -/
theorem skybox_advance_no_overshoot_C1 :
    (∀ (s : SkyState) (dt : ℚ), s.isTransitioning = false →
      skyboxUpdate dt s = s)
    ∧ (∀ (s : SkyState) (dt : ℚ), 0 ≤ dt → s.isTransitioning = true →
        (|s.targetAngle - s.angle| ≤ dt * transitionSpeed →
          (skyboxUpdate dt s).angle = s.targetAngle ∧
          (skyboxUpdate dt s).isTransitioning = false)
        ∧ (dt * transitionSpeed < |s.targetAngle - s.angle| →
          (skyboxUpdate dt s).angle =
            s.angle + dt * transitionSpeed * mathSign (s.targetAngle - s.angle) ∧
          (skyboxUpdate dt s).isTransitioning = true)
        ∧ |s.targetAngle - (skyboxUpdate dt s).angle| =
            max (|s.targetAngle - s.angle| - dt * transitionSpeed) 0
        ∧ min s.angle s.targetAngle ≤ (skyboxUpdate dt s).angle
        ∧ (skyboxUpdate dt s).angle ≤ max s.angle s.targetAngle)
    ∧ (∀ dts : List ℚ, (∀ d ∈ dts, 0 ≤ d) →
        nightAngle - dayAngle ≤ transitionSpeed * dts.sum →
        skyAdvanceAll dts (toggleSky (startSky initState)) =
          { angle := nightAngle, targetAngle := nightAngle,
            isDay := false, isTransitioning := false }) := by
  refine ⟨fun s dt h => skyboxUpdate_settled h dt, fun s dt hdt htr => ?_, ?_⟩
  · refine ⟨fun hc => ?_, fun hc => ?_, skyboxUpdate_remaining htr hdt,
      (skyboxUpdate_between htr hdt).1, (skyboxUpdate_between htr hdt).2⟩
    · have : skyboxUpdate dt s =
          { s with angle := s.targetAngle, isTransitioning := false } := by
        unfold skyboxUpdate
        rw [htr, if_pos rfl, if_pos hc]
      rw [this]
      exact ⟨rfl, rfl⟩
    · have : skyboxUpdate dt s =
          { s with angle :=
              s.angle + dt * transitionSpeed * mathSign (s.targetAngle - s.angle) } := by
        unfold skyboxUpdate
        rw [htr, if_pos rfl, if_neg (not_le.mpr hc)]
      rw [this]
      exact ⟨rfl, htr⟩
  · intro dts hnn hsum
    rw [toggled_day_state]
    have h := skyAdvanceAll_reaches dts
      { angle := dayAngle, targetAngle := nightAngle,
        isDay := false, isTransitioning := true } hnn rfl
      (by simpa using scenario_gap_pos)
      (by
        have : |nightAngle - dayAngle| = nightAngle - dayAngle :=
          abs_of_pos (by norm_num [nightAngle, dayAngle, mathPI])
        simpa [this] using hsum)
    simpa using h

lemma scenario_dts_nonneg : ∀ d ∈ ([2] : List ℚ), 0 ≤ d := by
  intro d hd
  rw [List.mem_singleton] at hd
  rw [hd]
  norm_num

lemma scenario_dts_sum :
    nightAngle - dayAngle ≤ transitionSpeed * ([2] : List ℚ).sum := by
  norm_num [nightAngle, dayAngle, mathPI, transitionSpeed]

theorem skybox_advance_no_overshoot_C1_witness :
    (∀ d ∈ ([2] : List ℚ), 0 ≤ d) ∧
    skyAdvanceAll [2] (toggleSky (startSky initState)) =
      { angle := nightAngle, targetAngle := nightAngle,
        isDay := false, isTransitioning := false } :=
  ⟨scenario_dts_nonneg,
    skybox_advance_no_overshoot_C1.2.2 [2] scenario_dts_nonneg scenario_dts_sum⟩

/-- Claim C2 fails on the code: toggling twice with no intervening Update
reaches a state with isTransitioning = true while angle = targetAngle, so
the claimed invariant isTransitioning == (angle != targetAngle) does not
hold in every reachable state. -/
theorem sky_invariant_C2_counterexample :
    ¬ ((runSkyEvents (startSky initState)
          [SkyEvent.toggle, SkyEvent.toggle]).isTransitioning = true ↔
        (runSkyEvents (startSky initState)
          [SkyEvent.toggle, SkyEvent.toggle]).angle ≠
        (runSkyEvents (startSky initState)
          [SkyEvent.toggle, SkyEvent.toggle]).targetAngle) := by
  have h : runSkyEvents (startSky initState) [SkyEvent.toggle, SkyEvent.toggle] =
      { angle := dayAngle, targetAngle := dayAngle,
        isDay := true, isTransitioning := true } := rfl
  rw [h]
  simp

/-- Claim C2 amended: in every reachable state of the controller (initial
state, then any interleaving of toggles and advances) the implication
(isTransitioning = false → angle = targetAngle) holds, i.e. angle can differ
from targetAngle only while isTransitioning; the converse direction of the
claimed equivalence fails after a double toggle with no intervening advance
(see the counterexample), and is restored by the next advance. -/
theorem sky_invariant_C2 :
    ∀ es : List SkyEvent,
      (runSkyEvents (startSky initState) es).isTransitioning = false →
      (runSkyEvents (startSky initState) es).angle =
        (runSkyEvents (startSky initState) es).targetAngle := by
  intro es
  refine runSkyEvents_invariant
    (fun s => s.isTransitioning = false → s.angle = s.targetAngle)
    es (startSky initState) (fun _ => rfl) ?_
  intro t e _ hP
  cases e with
  | toggle =>
    intro hf
    exfalso
    simp [applySkyEvent, toggleSky, toggleDayNight] at hf
  | advance dt =>
    intro hf
    by_cases ht : t.isTransitioning = true
    · by_cases hc : |t.targetAngle - t.angle| ≤ dt * transitionSpeed
      · have hu : skyboxUpdate dt t =
            { t with angle := t.targetAngle, isTransitioning := false } := by
          unfold skyboxUpdate
          rw [ht, if_pos rfl, if_pos hc]
        simp only [applySkyEvent, hu]
      · have hu : skyboxUpdate dt t =
            { t with angle :=
                t.angle + dt * transitionSpeed * mathSign (t.targetAngle - t.angle) } := by
          unfold skyboxUpdate
          rw [ht, if_pos rfl, if_neg hc]
        simp only [applySkyEvent, hu] at hf
        exact absurd hf (by simp [ht])
    · have hff : t.isTransitioning = false := by
        revert ht
        cases t.isTransitioning <;> simp
      simp only [applySkyEvent, skyboxUpdate_settled hff]
      simp only [applySkyEvent, skyboxUpdate_settled hff] at hf
      exact hP hf

theorem sky_invariant_C2_witness :
    (runSkyEvents (startSky initState) []).isTransitioning = false ∧
    (runSkyEvents (startSky initState) []).angle =
      (runSkyEvents (startSky initState) []).targetAngle :=
  ⟨rfl, sky_invariant_C2 [] rfl⟩

/-- Claim C3: toggleDayNight() flips isDay, sets targetAngle to exactly
dayAngle = 0.35π when the new state is day and nightAngle = 0.75π when
night, sets isTransitioning = true, returns the new isDay, and never
modifies angle (also when called mid-transition). -/
theorem skybox_toggle_C3 :
    ∀ s : SkyState,
      (toggleDayNight s).2.isDay = !s.isDay
      ∧ (toggleDayNight s).1 = (toggleDayNight s).2.isDay
      ∧ (toggleDayNight s).2.targetAngle =
          (if (toggleDayNight s).2.isDay then dayAngle else nightAngle)
      ∧ dayAngle = mathPI * 0.35
      ∧ nightAngle = mathPI * 0.75
      ∧ (toggleDayNight s).2.isTransitioning = true
      ∧ (toggleDayNight s).2.angle = s.angle :=
  fun _ => ⟨rfl, rfl, rfl, rfl, rfl, rfl, rfl⟩

/-- Claim C9 fails on the code: toggleDayNight before Skybox.Start is not
ignored or deferred; starting from the module-initial angle -1, a toggle
followed by one advance frame moves angle to -0.35, which is outside the
band between dayAngle and nightAngle, so angle does not lie at or between
the two constants once it moves. -/
theorem sky_prestart_C9_counterexample :
    (runSkyEvents initState [SkyEvent.toggle, SkyEvent.advance 1]).angle ≠
      initState.angle
    ∧ (runSkyEvents initState [SkyEvent.toggle, SkyEvent.advance 1]).angle <
        dayAngle := by
  have h1 : runSkyEvents initState [SkyEvent.toggle, SkyEvent.advance 1] =
      skyboxUpdate 1
        { angle := -1, targetAngle := nightAngle,
          isDay := false, isTransitioning := true } := rfl
  have hpos : (0:ℚ) < nightAngle - (-1) := by norm_num [nightAngle, mathPI]
  have hc : ¬ (|nightAngle - (-1 : ℚ)| ≤ 1 * transitionSpeed) := by
    rw [abs_of_pos hpos]
    norm_num [nightAngle, mathPI, transitionSpeed]
  have h2 : skyboxUpdate 1
      { angle := -1, targetAngle := nightAngle,
        isDay := false, isTransitioning := true } =
      { angle := -1 + 1 * transitionSpeed * mathSign (nightAngle - (-1)),
        targetAngle := nightAngle, isDay := false, isTransitioning := true } := by
    unfold skyboxUpdate
    rw [if_pos rfl, if_neg hc]
  rw [h1, h2, mathSign_of_pos hpos]
  constructor
  · simp only [initState]
    norm_num [transitionSpeed]
  · norm_num [transitionSpeed, dayAngle, mathPI]

/-- Claim C9 amended: the code has no Start guard, so a pre-Start toggle is
neither ignored nor deferred and during a pre-Start transition angle (which
starts at -1) can lie below dayAngle (see the counterexample); what does
hold is that targetAngle is always one of the two constants dayAngle and
nightAngle in every state reachable by toggles and advances whether or not
Start has run, and that once Start has run, angle always lies at or between
dayAngle and nightAngle for every sequence of toggles and non-negative
advances. -/
theorem sky_prestart_C9 :
    (∀ es : List SkyEvent,
       (runSkyEvents initState es).targetAngle = dayAngle ∨
       (runSkyEvents initState es).targetAngle = nightAngle)
    ∧ (∀ es : List SkyEvent, (∀ e ∈ es, e.dtOk) →
        dayAngle ≤ (runSkyEvents (startSky initState) es).angle
        ∧ (runSkyEvents (startSky initState) es).angle ≤ nightAngle
        ∧ ((runSkyEvents (startSky initState) es).targetAngle = dayAngle ∨
           (runSkyEvents (startSky initState) es).targetAngle = nightAngle)) := by
  constructor
  · intro es
    refine runSkyEvents_invariant
      (fun s => s.targetAngle = dayAngle ∨ s.targetAngle = nightAngle)
      es initState (Or.inl rfl) ?_
    intro t e _ hP
    cases e with
    | toggle =>
      simp only [applySkyEvent, toggleSky, toggleDayNight]
      by_cases hb : t.isDay
      · simp [hb]
      · simp [hb]
    | advance dt =>
      simpa only [applySkyEvent, skyboxUpdate_targetAngle] using hP
  · intro es hok
    have h := runSkyEvents_invariant
      (fun s => (dayAngle ≤ s.angle ∧ s.angle ≤ nightAngle) ∧
        (s.targetAngle = dayAngle ∨ s.targetAngle = nightAngle))
      es (startSky initState)
      ⟨⟨le_refl _, dayAngle_lt_nightAngle.le⟩, Or.inl rfl⟩ ?_
    · exact ⟨h.1.1, h.1.2, h.2⟩
    · intro t e he hP
      rcases hP with ⟨⟨ha1, ha2⟩, htg⟩
      cases e with
      | toggle =>
        refine ⟨⟨ha1, ha2⟩, ?_⟩
        simp only [applySkyEvent, toggleSky, toggleDayNight]
        by_cases hb : t.isDay
        · simp [hb]
        · simp [hb]
      | advance dt =>
        have hdt : 0 ≤ dt := hok _ he
        by_cases ht : t.isTransitioning = true
        · have hb := skyboxUpdate_between ht hdt
          have htgb : dayAngle ≤ t.targetAngle ∧ t.targetAngle ≤ nightAngle := by
            rcases htg with h' | h'
            · rw [h']; exact ⟨le_refl _, dayAngle_lt_nightAngle.le⟩
            · rw [h']; exact ⟨dayAngle_lt_nightAngle.le, le_refl _⟩
          refine ⟨⟨?_, ?_⟩, ?_⟩
          · exact le_trans (le_min ha1 htgb.1) hb.1
          · exact le_trans hb.2 (max_le ha2 htgb.2)
          · simpa only [applySkyEvent, skyboxUpdate_targetAngle] using htg
        · have hff : t.isTransitioning = false := by
            revert ht
            cases t.isTransitioning <;> simp
          simpa only [applySkyEvent, skyboxUpdate_settled hff] using
            ⟨⟨ha1, ha2⟩, htg⟩

lemma toggleEvent_dtOk : ∀ e ∈ [SkyEvent.toggle], e.dtOk := by
  intro e he
  rw [List.mem_singleton] at he
  subst he
  trivial

theorem sky_prestart_C9_witness :
    (∀ e ∈ [SkyEvent.toggle], SkyEvent.dtOk e) ∧
    dayAngle ≤ (runSkyEvents (startSky initState) [SkyEvent.toggle]).angle :=
  ⟨toggleEvent_dtOk, (sky_prestart_C9.2 [SkyEvent.toggle] toggleEvent_dtOk).1⟩

end Skybox

/-! ## Fire.js : fire intensity fade, visibility gates and the ember pool -/

namespace Fire

/-- Source constant FADE_SPEED = 0.6. -/
def FADE_SPEED : ℚ := 0.6

/-- Source constant EMBER_COUNT = 10. -/
def EMBER_COUNT : ℕ := 10

/-- Source constant EMBER_SPEED = 0.4. -/
def EMBER_SPEED : ℚ := 0.4

/-- Source constant EMBER_LIFETIME = 2.5. -/
def EMBER_LIFETIME : ℚ := 2.5

/-- The module-level fire intensity state of Fire.js:
let fireIntensity = 1.0; let targetIntensity = 1.0. -/
structure FireState where
  fireIntensity : ℚ
  targetIntensity : ℚ
deriving DecidableEq

/-- The intensity part of Fire.Update (Fire.js lines 379-393): set
targetIntensity from isDayTime(), then move fireIntensity toward it by
FADE_SPEED * deltaTime with a snap when the remaining distance is below the
step. -/
def fireUpdateIntensity (dt : ℚ) (isDay : Bool) (s : FireState) : FireState :=
  let s1 : FireState := { s with targetIntensity := if isDay then 0 else 1 }
  if s1.fireIntensity ≠ s1.targetIntensity then
    let diff := s1.targetIntensity - s1.fireIntensity
    let step := FADE_SPEED * dt
    if |diff| < step then
      { s1 with fireIntensity := s1.targetIntensity }
    else
      { s1 with fireIntensity := s1.fireIntensity + mathSign diff * step }
  else s1

/-- The value of the source ternary isDayTime() ? 0.0 : 1.0. -/
def fireTarget (isDay : Bool) : ℚ := if isDay then 0 else 1

/-- Folding the intensity update over a list of frame deltas with a constant
day/night flag. -/
def fireAdvanceAll (dts : List ℚ) (isDay : Bool) (s : FireState) : FireState :=
  dts.foldl (fun t d => fireUpdateIntensity d isDay t) s

/-- Branch-normal form of the intensity update. -/
lemma fireUpdateIntensity_eq (dt : ℚ) (isDay : Bool) (s : FireState) :
    fireUpdateIntensity dt isDay s =
      if s.fireIntensity = fireTarget isDay then
        { fireIntensity := s.fireIntensity, targetIntensity := fireTarget isDay }
      else if |fireTarget isDay - s.fireIntensity| < FADE_SPEED * dt then
        { fireIntensity := fireTarget isDay, targetIntensity := fireTarget isDay }
      else
        { fireIntensity := s.fireIntensity +
            mathSign (fireTarget isDay - s.fireIntensity) * (FADE_SPEED * dt),
          targetIntensity := fireTarget isDay } := by
  simp only [fireUpdateIntensity, fireTarget]
  split_ifs <;> first | rfl | (exfalso; tauto)

lemma fireUpdateIntensity_target (dt : ℚ) (isDay : Bool) (s : FireState) :
    (fireUpdateIntensity dt isDay s).targetIntensity = fireTarget isDay := by
  rw [fireUpdateIntensity_eq]
  split_ifs <;> rfl

lemma fireUpdateIntensity_remaining (dt : ℚ) (isDay : Bool) (s : FireState)
    (hdt : 0 ≤ dt) :
    |fireTarget isDay - (fireUpdateIntensity dt isDay s).fireIntensity| =
      max (|fireTarget isDay - s.fireIntensity| - FADE_SPEED * dt) 0 := by
  have hstep : 0 ≤ FADE_SPEED * dt :=
    mul_nonneg (by norm_num [FADE_SPEED]) hdt
  rw [fireUpdateIntensity_eq]
  split_ifs with h1 h2
  · rw [h1]
    rw [sub_self, abs_zero, zero_sub,
      max_eq_right (neg_nonpos.mpr hstep)]
  · simp only []
    rw [sub_self, abs_zero, max_eq_right (by linarith)]
  · push_neg at h2
    simp only []
    rw [mul_comm (mathSign _) (FADE_SPEED * dt),
      approach_abs _ _ _ hstep h2, max_eq_left (by linarith)]

lemma fireUpdateIntensity_move_bound (dt : ℚ) (isDay : Bool) (s : FireState)
    (hdt : 0 ≤ dt) :
    |(fireUpdateIntensity dt isDay s).fireIntensity - s.fireIntensity| ≤
      FADE_SPEED * dt := by
  have hstep : 0 ≤ FADE_SPEED * dt :=
    mul_nonneg (by norm_num [FADE_SPEED]) hdt
  rw [fireUpdateIntensity_eq]
  split_ifs with h1 h2
  · simp only []
    rw [sub_self, abs_zero]
    exact hstep
  · simp only []
    exact h2.le
  · simp only [add_sub_cancel_left]
    rw [abs_mul]
    have hd : fireTarget isDay - s.fireIntensity ≠ 0 :=
      sub_ne_zero.mpr (Ne.symm h1)
    have hsign : |mathSign (fireTarget isDay - s.fireIntensity)| = 1 := by
      rcases hd.lt_or_lt with h | h
      · rw [mathSign_of_neg h]; norm_num
      · rw [mathSign_of_pos h]; norm_num
    rw [hsign, one_mul, abs_of_nonneg hstep]

lemma fireUpdateIntensity_snap (dt : ℚ) (isDay : Bool) (s : FireState)
    (hdt : 0 ≤ dt)
    (hc : |fireTarget isDay - s.fireIntensity| ≤ FADE_SPEED * dt) :
    (fireUpdateIntensity dt isDay s).fireIntensity = fireTarget isDay := by
  have h := fireUpdateIntensity_remaining dt isDay s hdt
  rw [max_eq_right (by linarith)] at h
  have := abs_eq_zero.mp h
  linarith [sub_eq_zero.mp this]

lemma fireAdvanceAll_reaches :
    ∀ (dts : List ℚ) (isDay : Bool) (s : FireState), (∀ d ∈ dts, 0 ≤ d) →
      |fireTarget isDay - s.fireIntensity| ≤ FADE_SPEED * dts.sum →
      (fireAdvanceAll dts isDay s).fireIntensity = fireTarget isDay := by
  intro dts
  induction dts with
  | nil =>
    intro isDay s _ hsum
    simp only [List.sum_nil, mul_zero] at hsum
    have h0 : |fireTarget isDay - s.fireIntensity| = 0 :=
      le_antisymm hsum (abs_nonneg _)
    have := sub_eq_zero.mp (abs_eq_zero.mp h0)
    simp only [fireAdvanceAll, List.foldl_nil]
    linarith
  | cons d rest ih =>
    intro isDay s hnn hsum
    have hd : 0 ≤ d := hnn d (List.mem_cons_self d rest)
    have hrest : ∀ x ∈ rest, 0 ≤ x := fun x hx => hnn x (List.mem_cons_of_mem d hx)
    have hrestsum : 0 ≤ rest.sum := List.sum_nonneg hrest
    have hfs : (0:ℚ) ≤ FADE_SPEED := by norm_num [FADE_SPEED]
    have hrem := fireUpdateIntensity_remaining d isDay s hd
    have hnext : |fireTarget isDay - (fireUpdateIntensity d isDay s).fireIntensity| ≤
        FADE_SPEED * rest.sum := by
      rw [hrem]
      rw [List.sum_cons, mul_add] at hsum
      have h1 : |fireTarget isDay - s.fireIntensity| - FADE_SPEED * d ≤
          FADE_SPEED * rest.sum := by linarith
      exact max_le h1 (mul_nonneg hfs hrestsum)
    have := ih isDay (fireUpdateIntensity d isDay s) hrest hnext
    simpa [fireAdvanceAll, List.foldl_cons] using this

/-- Claim C4: on every Fire.Update frame targetIntensity is 0 if day and 1
otherwise, fireIntensity moves toward the target by at most FADE_SPEED*dt
per frame without overshooting (the remaining distance shrinks by exactly
the clamped step), it lands exactly on the target whenever the remaining
distance is at most this frame's maximum step, and with a constant day
flag it equals the target once cumulative time reaches
|target - start| / FADE_SPEED — hence within 1/FADE_SPEED seconds when the
starting intensity lies in [0,1]. -/
theorem fire_intensity_C4 :
    (∀ (dt : ℚ) (isDay : Bool) (s : FireState), 0 ≤ dt →
      (fireUpdateIntensity dt isDay s).targetIntensity = fireTarget isDay
      ∧ |(fireUpdateIntensity dt isDay s).fireIntensity - s.fireIntensity| ≤
          FADE_SPEED * dt
      ∧ |fireTarget isDay - (fireUpdateIntensity dt isDay s).fireIntensity| =
          max (|fireTarget isDay - s.fireIntensity| - FADE_SPEED * dt) 0
      ∧ (|fireTarget isDay - s.fireIntensity| ≤ FADE_SPEED * dt →
          (fireUpdateIntensity dt isDay s).fireIntensity = fireTarget isDay))
    ∧ (∀ (dts : List ℚ) (isDay : Bool) (s : FireState), (∀ d ∈ dts, 0 ≤ d) →
        |fireTarget isDay - s.fireIntensity| ≤ FADE_SPEED * dts.sum →
        (fireAdvanceAll dts isDay s).fireIntensity = fireTarget isDay)
    ∧ (∀ (dts : List ℚ) (isDay : Bool) (s : FireState), (∀ d ∈ dts, 0 ≤ d) →
        0 ≤ s.fireIntensity → s.fireIntensity ≤ 1 →
        1 / FADE_SPEED ≤ dts.sum →
        (fireAdvanceAll dts isDay s).fireIntensity = fireTarget isDay) := by
  refine ⟨fun dt isDay s hdt =>
      ⟨fireUpdateIntensity_target dt isDay s,
        fireUpdateIntensity_move_bound dt isDay s hdt,
        fireUpdateIntensity_remaining dt isDay s hdt,
        fireUpdateIntensity_snap dt isDay s hdt⟩,
    fireAdvanceAll_reaches, ?_⟩
  intro dts isDay s hnn h0 h1 hsum
  refine fireAdvanceAll_reaches dts isDay s hnn ?_
  have hfs : (0:ℚ) < FADE_SPEED := by norm_num [FADE_SPEED]
  have hb : |fireTarget isDay - s.fireIntensity| ≤ 1 := by
    cases isDay
    · have ht : fireTarget false = 1 := rfl
      rw [ht, abs_le]
      constructor <;> linarith
    · have ht : fireTarget true = 0 := rfl
      rw [ht, abs_le]
      constructor <;> linarith
  have hmul : FADE_SPEED * (1 / FADE_SPEED) ≤ FADE_SPEED * dts.sum :=
    mul_le_mul_of_nonneg_left hsum hfs.le
  have hone : FADE_SPEED * (1 / FADE_SPEED) = 1 := by field_simp
  linarith

lemma fade_dts_nonneg : ∀ d ∈ ([2] : List ℚ), 0 ≤ d := by
  intro d hd
  rw [List.mem_singleton] at hd
  rw [hd]
  norm_num

lemma fade_dts_sum :
    |fireTarget true - (1:ℚ)| ≤ FADE_SPEED * ([2] : List ℚ).sum := by
  have ht : fireTarget true = 0 := rfl
  rw [ht]
  norm_num [FADE_SPEED]

theorem fire_intensity_C4_witness :
    (∀ d ∈ ([2] : List ℚ), 0 ≤ d) ∧
    (fireAdvanceAll [2] true
      { fireIntensity := 1, targetIntensity := 1 }).fireIntensity =
      fireTarget true :=
  ⟨fade_dts_nonneg,
    fire_intensity_C4.2.1 [2] true { fireIntensity := 1, targetIntensity := 1 }
      fade_dts_nonneg fade_dts_sum⟩

/-! ### Ember particle pool (Fire.js initEmbers / resetEmber / updateEmbers)

The parallel arrays emberPositions / emberLifes / emberRandoms /
emberVelocities are modelled as a list of Ember records; Math.random() draws
are an oracle g : ℕ → ℚ consumed at fixed indices (seven draws per reset,
in source order: position x, y, z, the aRandom attribute, the speed
variation, velocity x, velocity z); Math.sin and Math.cos only perturb
positions and are passed in as abstract functions. -/

structure Ember where
  px : ℚ
  py : ℚ
  pz : ℚ
  life : ℚ
  rnd : ℚ
  vx : ℚ
  vy : ℚ
  vz : ℚ
deriving DecidableEq

/-- resetEmber(index) from Fire.js, with its seven Math.random() draws made
explicit (r1..r3 position, r4 the aRandom attribute, r5 the speed
variation draw, r6/r7 horizontal drift). -/
def resetEmber (r1 r2 r3 r4 r5 r6 r7 : ℚ) : Ember :=
  { px := (r1 - 0.5) * 0.1
    py := 0.1 + r2 * 0.2
    pz := (r3 - 0.5) * 0.1
    life := 1
    rnd := r4
    vx := (r6 - 0.5) * 0.1
    vy := EMBER_SPEED * (0.5 + r5 * 1.0)
    vz := (r7 - 0.5) * 0.1 }

/-- The reset of slot i, drawing its seven randoms from the oracle. -/
def resetDraws (g : ℕ → ℚ) (i : ℕ) : Ember :=
  resetEmber (g (7*i)) (g (7*i+1)) (g (7*i+2)) (g (7*i+3)) (g (7*i+4))
    (g (7*i+5)) (g (7*i+6))

/-- One loop iteration of updateEmbers for slot i: drift + wobble on the
position, horizontal velocity damping, linear life decay, and an immediate
in-place reset when life reaches 0. -/
def stepEmber (sinF cosF : ℚ → ℚ) (dt tm : ℚ) (g : ℕ → ℚ) (i : ℕ)
    (e : Ember) : Ember :=
  let px := e.px + e.vx * dt + sinF (tm * 3.0 + (i : ℚ) * 2.5) * 0.003 * dt * 60
  let py := e.py + e.vy * dt
  let pz := e.pz + e.vz * dt + cosF (tm * 2.5 + (i : ℚ) * 1.7) * 0.003 * dt * 60
  let vx := e.vx * 0.99
  let vz := e.vz * 0.99
  let life := e.life - dt / EMBER_LIFETIME
  if life ≤ 0 then
    resetDraws g i
  else
    { px := px, py := py, pz := pz, life := life, rnd := e.rnd,
      vx := vx, vy := e.vy, vz := vz }

def updateEmbersAux (sinF cosF : ℚ → ℚ) (dt tm : ℚ) (g : ℕ → ℚ) :
    ℕ → List Ember → List Ember
  | _, [] => []
  | i, e :: es =>
    stepEmber sinF cosF dt tm g i e ::
      updateEmbersAux sinF cosF dt tm g (i+1) es

/-- updateEmbers() from Fire.js: the loop over the fixed pool. -/
def updateEmbers (sinF cosF : ℚ → ℚ) (dt tm : ℚ) (g : ℕ → ℚ)
    (embers : List Ember) : List Ember :=
  updateEmbersAux sinF cosF dt tm g 0 embers

/-- initEmbers() from Fire.js: EMBER_COUNT slots, each reset and then given
a staggered random initial life (the eighth draw of its slot). -/
def initEmbers (g : ℕ → ℚ) : List Ember :=
  (List.range EMBER_COUNT).map (fun i =>
    { resetEmber (g (8*i)) (g (8*i+1)) (g (8*i+2)) (g (8*i+3)) (g (8*i+4))
        (g (8*i+5)) (g (8*i+6)) with
      life := g (8*i+7) })

lemma stepEmber_reset {dt : ℚ} {e : Ember}
    (h : e.life - dt / EMBER_LIFETIME ≤ 0)
    (sinF cosF : ℚ → ℚ) (tm : ℚ) (g : ℕ → ℚ) (i : ℕ) :
    stepEmber sinF cosF dt tm g i e = resetDraws g i := by
  simp only [stepEmber]
  rw [if_pos h]

lemma stepEmber_alive {dt : ℚ} {e : Ember}
    (h : ¬ e.life - dt / EMBER_LIFETIME ≤ 0)
    (sinF cosF : ℚ → ℚ) (tm : ℚ) (g : ℕ → ℚ) (i : ℕ) :
    (stepEmber sinF cosF dt tm g i e).life = e.life - dt / EMBER_LIFETIME := by
  simp only [stepEmber]
  rw [if_neg h]

lemma updateEmbersAux_length (sinF cosF : ℚ → ℚ) (dt tm : ℚ) (g : ℕ → ℚ) :
    ∀ (es : List Ember) (i : ℕ),
      (updateEmbersAux sinF cosF dt tm g i es).length = es.length := by
  intro es
  induction es with
  | nil => intro i; rfl
  | cons e rest ih =>
    intro i
    simp only [updateEmbersAux, List.length_cons, ih]

lemma updateEmbersAux_life (sinF cosF : ℚ → ℚ) (dt tm : ℚ) (g : ℕ → ℚ)
    (hdt : 0 ≤ dt) :
    ∀ (es : List Ember) (i : ℕ), (∀ e ∈ es, e.life ≤ 1) →
      ∀ e' ∈ updateEmbersAux sinF cosF dt tm g i es,
        0 ≤ e'.life ∧ e'.life ≤ 1 := by
  intro es
  induction es with
  | nil =>
    intro i _ e' he'
    simp [updateEmbersAux] at he'
  | cons e rest ih =>
    intro i hle e' he'
    have hdecay : 0 ≤ dt / EMBER_LIFETIME :=
      div_nonneg hdt (by norm_num [EMBER_LIFETIME])
    simp only [updateEmbersAux, List.mem_cons] at he'
    rcases he' with h | h
    · subst h
      by_cases hd : e.life - dt / EMBER_LIFETIME ≤ 0
      · rw [stepEmber_reset hd]
        constructor <;> norm_num [resetDraws, resetEmber]
      · rw [stepEmber_alive hd]
        push_neg at hd
        have := hle e (List.mem_cons_self e rest)
        constructor <;> linarith
    · exact ih (i+1) (fun x hx => hle x (List.mem_cons_of_mem e hx)) e' h

lemma updateEmbersAux_getElem (sinF cosF : ℚ → ℚ) (dt tm : ℚ) (g : ℕ → ℚ) :
    ∀ (es : List Ember) (i j : ℕ),
      (updateEmbersAux sinF cosF dt tm g i es)[j]? =
        (es[j]?).map (stepEmber sinF cosF dt tm g (i + j)) := by
  intro es
  induction es with
  | nil => intro i j; simp [updateEmbersAux]
  | cons e rest ih =>
    intro i j
    cases j with
    | zero => simp [updateEmbersAux]
    | succ j =>
      simp only [updateEmbersAux, List.getElem?_cons_succ, ih (i+1) j]
      have hn : i + 1 + j = i + (j + 1) := by omega
      rw [hn]

lemma ember_reset_pos_bound {r : ℚ} (h0 : 0 ≤ r) (h1 : r < 1) :
    |(r - 0.5) * 0.1| ≤ 0.05 := by
  rw [abs_le]
  constructor <;> nlinarith

/-- Claim C6: the ember pool is closed under updateEmbers: the number of
slots is preserved (and initEmbers creates exactly EMBER_COUNT = 10),
no ember has life outside [0,1] after a completed update, and a slot whose
life reaches ≤ 0 during a tick is reinitialised in place within the same
tick — life set to 1, position near the origin, and a new upward velocity
whose speed multiplier lies in [0.5, 1.5] (the code draws it from
[0.5, 1.5) via 0.5 + Math.random()). -/
theorem fire_embers_C6 :
    ∀ (sinF cosF : ℚ → ℚ) (dt tm : ℚ) (g : ℕ → ℚ) (embers : List Ember),
      0 ≤ dt → (∀ n, 0 ≤ g n ∧ g n < 1) → (∀ e ∈ embers, e.life ≤ 1) →
      (initEmbers g).length = EMBER_COUNT
      ∧ (updateEmbers sinF cosF dt tm g embers).length = embers.length
      ∧ (∀ e' ∈ updateEmbers sinF cosF dt tm g embers,
          0 ≤ e'.life ∧ e'.life ≤ 1)
      ∧ (∀ (i : ℕ) (e : Ember), embers[i]? = some e →
          e.life - dt / EMBER_LIFETIME ≤ 0 →
          (updateEmbers sinF cosF dt tm g embers)[i]? = some (resetDraws g i)
          ∧ (resetDraws g i).life = 1
          ∧ (∃ m, 0.5 ≤ m ∧ m ≤ 1.5 ∧ (resetDraws g i).vy = EMBER_SPEED * m)
          ∧ |(resetDraws g i).px| ≤ 0.05
          ∧ 0.1 ≤ (resetDraws g i).py ∧ (resetDraws g i).py ≤ 0.3
          ∧ |(resetDraws g i).pz| ≤ 0.05) := by
  intro sinF cosF dt tm g embers hdt hg hle
  refine ⟨by simp [initEmbers, EMBER_COUNT],
    updateEmbersAux_length sinF cosF dt tm g embers 0,
    updateEmbersAux_life sinF cosF dt tm g hdt embers 0 hle, ?_⟩
  intro i e hie hdead
  have hget := updateEmbersAux_getElem sinF cosF dt tm g embers 0 i
  rw [hie] at hget
  simp only [Option.map_some'] at hget
  rw [Nat.zero_add] at hget
  rw [stepEmber_reset hdead] at hget
  refine ⟨hget, rfl, ⟨0.5 + g (7*i+4) * 1.0, ?_, ?_, rfl⟩, ?_, ?_, ?_, ?_⟩
  · have := (hg (7*i+4)).1
    linarith
  · have := (hg (7*i+4)).2
    linarith
  · exact ember_reset_pos_bound (hg (7*i)).1 (hg (7*i)).2
  · have := (hg (7*i+1)).1
    simp only [resetDraws, resetEmber]
    nlinarith
  · have := (hg (7*i+1)).2
    simp only [resetDraws, resetEmber]
    nlinarith
  · exact ember_reset_pos_bound (hg (7*i+2)).1 (hg (7*i+2)).2

/-- A concrete ember used to instantiate the pool theorem. -/
def emberExample : Ember :=
  { px := 0, py := 0, pz := 0, life := 1, rnd := 0, vx := 0, vy := 0, vz := 0 }

lemma ember_life_le_one : ∀ e ∈ [emberExample], e.life ≤ 1 := by
  intro e he
  rw [List.mem_singleton] at he
  subst he
  simp [emberExample]

lemma ember_oracle_ok : ∀ n : ℕ, 0 ≤ (fun _ : ℕ => (0:ℚ)) n ∧
    (fun _ : ℕ => (0:ℚ)) n < 1 :=
  fun _ => ⟨le_refl 0, zero_lt_one⟩

theorem fire_embers_C6_witness :
    (0:ℚ) ≤ 1 ∧
    (initEmbers (fun _ => 0)).length = EMBER_COUNT :=
  ⟨zero_le_one,
    (fire_embers_C6 (fun _ => 0) (fun _ => 0) 1 0 (fun _ => 0) [emberExample]
      zero_le_one ember_oracle_ok ember_life_le_one).1⟩

/-! ### The full Fire.Update frame: intensity fade, ember gate, visibility
gate (Fire.js lines 379-416).  The shader-uniform and point-light flicker
writes are derived outputs and are out of model. -/

structure FireFrame where
  state : FireState
  visible : Bool
  embersRan : Bool
  embers : List Ember
deriving DecidableEq

/-- Fire.Update: fade the intensity, then run updateEmbers only when
fireIntensity > 0.01, and set fire.visible = fireIntensity > 0.001. -/
def fireUpdate (sinF cosF : ℚ → ℚ) (dt tm : ℚ) (g : ℕ → ℚ) (isDay : Bool)
    (s : FireState) (embers : List Ember) : FireFrame :=
  let s1 := fireUpdateIntensity dt isDay s
  { state := s1
    visible := decide ((0.001 : ℚ) < s1.fireIntensity)
    embersRan := decide ((0.01 : ℚ) < s1.fireIntensity)
    embers :=
      if (0.01 : ℚ) < s1.fireIntensity then
        updateEmbers sinF cosF dt tm g embers
      else embers }

lemma fireUpdate_state (sinF cosF : ℚ → ℚ) (dt tm : ℚ) (g : ℕ → ℚ)
    (isDay : Bool) (s : FireState) (embers : List Ember) :
    (fireUpdate sinF cosF dt tm g isDay s embers).state =
      fireUpdateIntensity dt isDay s := rfl

lemma gap_intensity_example :
    (fireUpdateIntensity 0 true
      { fireIntensity := 0.005, targetIntensity := 0 }).fireIntensity =
      0.005 := by
  rw [fireUpdateIntensity_eq]
  have ht : fireTarget true = 0 := rfl
  rw [ht]
  rw [if_neg (by norm_num), if_neg (by norm_num)]
  simp only []
  ring

/-- Claim C8 fails on the code at the boundary value: one frame can leave
fireIntensity exactly at 0.001 (here: from intensity 1 toward the day
target 0 with dt = 1.665, step 0.999), and there the group is hidden
(fire.visible = fireIntensity > 0.001 is false) although the claimed
condition currentIntensity < 0.001 does not hold. -/
theorem fire_gate_C8_counterexample :
    (fireUpdate (fun _ => 0) (fun _ => 0) 1.665 0 (fun _ => 0) true
      { fireIntensity := 1, targetIntensity := 1 } []).visible = false
    ∧ ¬ ((fireUpdate (fun _ => 0) (fun _ => 0) 1.665 0 (fun _ => 0) true
        { fireIntensity := 1, targetIntensity := 1 } []).state.fireIntensity
          < 0.001) := by
  have hs : (fireUpdateIntensity 1.665 true
      { fireIntensity := 1, targetIntensity := 1 }).fireIntensity = 0.001 := by
    rw [fireUpdateIntensity_eq]
    have ht : fireTarget true = 0 := rfl
    rw [ht]
    rw [if_neg (by norm_num), if_neg ?hstep]
    case hstep =>
      rw [show ((0:ℚ) - 1) = -1 by norm_num, abs_neg, abs_one]
      norm_num [FADE_SPEED]
    have hsg : mathSign ((0:ℚ) - 1) = -1 := mathSign_of_neg (by norm_num)
    simp only [hsg]
    norm_num [FADE_SPEED]
  constructor
  · simp only [fireUpdate, hs]
    rw [decide_eq_false_iff_not]
    norm_num
  · rw [fireUpdate_state, hs]
    norm_num

/-- Claim C8 amended: on every Fire.Update frame the group is hidden
exactly when the post-update currentIntensity is ≤ 0.001 (the code computes
visible as fireIntensity > 0.001, so the boundary value 0.001 is hidden,
not visible as the claim's strict < would imply — see the counterexample);
the ember pool update runs if and only if currentIntensity > 0.01, and for
every intensity in the gap (0.001, 0.01] the group is visible while the
embers are not advanced. -/
theorem fire_gate_C8 :
    ∀ (sinF cosF : ℚ → ℚ) (dt tm : ℚ) (g : ℕ → ℚ) (isDay : Bool)
      (s : FireState) (embers : List Ember),
      ((fireUpdate sinF cosF dt tm g isDay s embers).visible = false ↔
        (fireUpdate sinF cosF dt tm g isDay s embers).state.fireIntensity ≤
          0.001)
      ∧ ((fireUpdate sinF cosF dt tm g isDay s embers).embersRan = true ↔
          0.01 <
            (fireUpdate sinF cosF dt tm g isDay s embers).state.fireIntensity)
      ∧ ((fireUpdate sinF cosF dt tm g isDay s embers).embersRan = true →
          (fireUpdate sinF cosF dt tm g isDay s embers).embers =
            updateEmbers sinF cosF dt tm g embers)
      ∧ ((fireUpdate sinF cosF dt tm g isDay s embers).embersRan = false →
          (fireUpdate sinF cosF dt tm g isDay s embers).embers = embers)
      ∧ (0.001 <
            (fireUpdate sinF cosF dt tm g isDay s embers).state.fireIntensity →
          (fireUpdate sinF cosF dt tm g isDay s embers).state.fireIntensity ≤
            0.01 →
          (fireUpdate sinF cosF dt tm g isDay s embers).visible = true
          ∧ (fireUpdate sinF cosF dt tm g isDay s embers).embersRan = false) := by
  intro sinF cosF dt tm g isDay s embers
  refine ⟨?_, ?_, ?_, ?_, ?_⟩
  · simp only [fireUpdate]
    rw [decide_eq_false_iff_not, not_lt]
  · simp only [fireUpdate]
    rw [decide_eq_true_eq]
  · intro h
    simp only [fireUpdate] at h ⊢
    rw [decide_eq_true_eq] at h
    rw [if_pos h]
  · intro h
    simp only [fireUpdate] at h ⊢
    rw [decide_eq_false_iff_not] at h
    rw [if_neg h]
  · intro h1 h2
    simp only [fireUpdate, fireUpdate_state] at h1 h2 ⊢
    constructor
    · rw [decide_eq_true_eq]
      exact h1
    · rw [decide_eq_false_iff_not, not_lt]
      exact h2

lemma gap_lower :
    (0.001 : ℚ) < (fireUpdate (fun _ => 0) (fun _ => 0) 0 0 (fun _ => 0) true
      { fireIntensity := 0.005, targetIntensity := 0 } []).state.fireIntensity := by
  rw [fireUpdate_state, gap_intensity_example]
  norm_num

lemma gap_upper :
    (fireUpdate (fun _ => 0) (fun _ => 0) 0 0 (fun _ => 0) true
      { fireIntensity := 0.005, targetIntensity := 0 } []).state.fireIntensity ≤
      (0.01 : ℚ) := by
  rw [fireUpdate_state, gap_intensity_example]
  norm_num

theorem fire_gate_C8_witness :
    (0.001 : ℚ) < (fireUpdate (fun _ => 0) (fun _ => 0) 0 0 (fun _ => 0) true
      { fireIntensity := 0.005, targetIntensity := 0 } []).state.fireIntensity
    ∧ (fireUpdate (fun _ => 0) (fun _ => 0) 0 0 (fun _ => 0) true
        { fireIntensity := 0.005, targetIntensity := 0 } []).visible = true
    ∧ (fireUpdate (fun _ => 0) (fun _ => 0) 0 0 (fun _ => 0) true
        { fireIntensity := 0.005, targetIntensity := 0 } []).embersRan = false :=
  ⟨gap_lower,
    (fire_gate_C8 (fun _ => 0) (fun _ => 0) 0 0 (fun _ => 0) true
      { fireIntensity := 0.005, targetIntensity := 0 } []).2.2.2.2
      gap_lower gap_upper⟩

end Fire

/-! ## Audio.js : the fireplace controller (HTML5-element variant, desktop
path isIOS = false).  The water/breeze tracks, the DOM audio elements and
the asynchronous play()/requestAnimationFrame callbacks are out of model;
the modelled state is the module-level flags together with the fireplace
element's volume property.  performance.now() timestamps (milliseconds) are
passed in as the now argument.  The field audioReady models the source
variable audioInitialized. -/

namespace Audio

/-- Source constant FIREPLACE_VOLUME_MAX = 0.35. -/
def FIREPLACE_VOLUME_MAX : ℚ := 0.35

/-- Source constant FIREPLACE_VOLUME_MIN = 0.0 (WebAudio variant; the HTML5
variant uses the same floor implicitly by starting the fade at volume 0). -/
def FIREPLACE_VOLUME_MIN : ℚ := 0.0

/-- Source constant FIREPLACE_FADE_DURATION = 3.0 seconds. -/
def FIREPLACE_FADE_DURATION : ℚ := 3.0

structure AudioState where
  audioReady : Bool
  wasDay : Bool
  fireplaceActive : Bool
  fireplaceFading : Bool
  fireplaceFadeStart : ℚ
  fireplaceVolume : ℚ
deriving DecidableEq

/-- startFireplaceSound() (Audio.js lines 250-273, desktop branch): no-op
while already active, otherwise reset volume to 0, record the fade start
and raise the active and fading flags.  The paired Bool records whether the
start effect actually executed. -/
def startFireplaceSoundI (now : ℚ) (s : AudioState) : AudioState × Bool :=
  if s.fireplaceActive then (s, false)
  else
    ({ s with
        fireplaceVolume := 0
        fireplaceFadeStart := now
        fireplaceFading := true
        fireplaceActive := true }, true)

def startFireplaceSound (now : ℚ) (s : AudioState) : AudioState :=
  (startFireplaceSoundI now s).1

/-- stopFireplaceSound() (Audio.js lines 275-306, desktop branch): no-op
while already inactive, otherwise clear the active and fading flags (the
asynchronous 500 ms volume fade-out is out of model). -/
def stopFireplaceSound (s : AudioState) : AudioState :=
  if !s.fireplaceActive then s
  else { s with fireplaceActive := false, fireplaceFading := false }

/-- Audio.Update (Audio.js lines 322-351): early-out before initialisation,
edge-triggered start/stop on the sampled day flag, unconditional wasDay
update after the comparison, then the polled linear fade-in.  The second
component reports whether the fireplace start effect executed this frame. -/
def audioUpdateI (now : ℚ) (isDay : Bool) (s : AudioState) :
    AudioState × Bool :=
  if !s.audioReady then (s, false)
  else
    let r1 := if s.wasDay && !isDay then startFireplaceSoundI now s
      else (s, false)
    let s2 := if !s.wasDay && isDay then stopFireplaceSound r1.1 else r1.1
    let s3 := { s2 with wasDay := isDay }
    let s4 :=
      if s3.fireplaceFading then
        let elapsed := (now - s3.fireplaceFadeStart) / 1000
        let progress := min (elapsed / FIREPLACE_FADE_DURATION) 1
        let volume := FIREPLACE_VOLUME_MAX * progress
        let s5 := { s3 with fireplaceVolume := volume }
        if 1 ≤ progress then { s5 with fireplaceFading := false } else s5
      else s3
    (s4, r1.2)

def audioUpdate (now : ℚ) (isDay : Bool) (s : AudioState) : AudioState :=
  (audioUpdateI now isDay s).1

/-- Running Update over a list of frames (timestamp, sampled day flag),
counting how many frames executed the fireplace start effect. -/
def audioRun (frames : List (ℚ × Bool)) (s : AudioState) : AudioState × ℕ :=
  frames.foldl
    (fun p f =>
      ((audioUpdateI f.1 f.2 p.1).1,
        p.2 + (if (audioUpdateI f.1 f.2 p.1).2 then 1 else 0)))
    (s, 0)

lemma audioUpdateI_ready (now : ℚ) (isDay : Bool) (s : AudioState) :
    (audioUpdateI now isDay s).1.audioReady = s.audioReady := by
  simp only [audioUpdateI, startFireplaceSoundI, stopFireplaceSound]
  split_ifs <;> rfl

lemma audioUpdateI_wasDay (now : ℚ) (isDay : Bool) (s : AudioState)
    (hr : s.audioReady = true) :
    (audioUpdateI now isDay s).1.wasDay = isDay := by
  simp only [audioUpdateI, startFireplaceSoundI, stopFireplaceSound]
  split_ifs <;> first | rfl | simp_all

lemma audioUpdateI_started (now : ℚ) (isDay : Bool) (s : AudioState) :
    (audioUpdateI now isDay s).2 =
      (s.audioReady && (s.wasDay && !isDay) && !s.fireplaceActive) := by
  simp only [audioUpdateI, startFireplaceSoundI, stopFireplaceSound]
  by_cases hr : s.audioReady
  · by_cases he : s.wasDay && !isDay
    · by_cases ha : s.fireplaceActive
      · simp [hr, he, ha]
      · simp [hr, he, ha]
    · simp [hr, he]
  · simp [hr]

/-- Claim C5: the fireplace start routine executes its start effect exactly
once per day→night edge: with the day flag sampled false on three
consecutive frames starting from wasDay = true, the run executes the start
effect exactly once when the fireplace was inactive and zero times when it
was already active (the guard makes the start routine a no-op while active,
and symmetrically the stop routine is a no-op while inactive). -/
theorem audio_edge_C5 :
    (∀ (s : AudioState) (t1 t2 t3 : ℚ),
      s.audioReady = true → s.wasDay = true →
      (audioRun [(t1, false), (t2, false), (t3, false)] s).2 =
        (if s.fireplaceActive then 0 else 1))
    ∧ (∀ (now : ℚ) (isDay : Bool) (s : AudioState),
        (audioUpdateI now isDay s).2 =
          (s.audioReady && (s.wasDay && !isDay) && !s.fireplaceActive)
        ∧ (s.audioReady = true → (audioUpdateI now isDay s).1.wasDay = isDay))
    ∧ (∀ (now : ℚ) (s : AudioState), s.fireplaceActive = true →
        startFireplaceSound now s = s)
    ∧ (∀ s : AudioState, s.fireplaceActive = false →
        stopFireplaceSound s = s) := by
  refine ⟨?_,
    fun now isDay s => ⟨audioUpdateI_started now isDay s,
      audioUpdateI_wasDay now isDay s⟩, ?_, ?_⟩
  · intro s t1 t2 t3 hr hw
    have h1s := audioUpdateI_started t1 false s
    rw [hr, hw] at h1s
    simp only [Bool.not_false, Bool.and_true, Bool.true_and] at h1s
    have h1r := audioUpdateI_ready t1 false s
    rw [hr] at h1r
    have h1w := audioUpdateI_wasDay t1 false s hr
    have h2s := audioUpdateI_started t2 false (audioUpdateI t1 false s).1
    rw [h1w] at h2s
    simp only [Bool.false_and, Bool.and_false, Bool.false_and,
      Bool.and_self] at h2s
    have h2r := audioUpdateI_ready t2 false (audioUpdateI t1 false s).1
    rw [h1r] at h2r
    have h2w := audioUpdateI_wasDay t2 false (audioUpdateI t1 false s).1 h1r
    have h3s := audioUpdateI_started t3 false
      (audioUpdateI t2 false (audioUpdateI t1 false s).1).1
    rw [h2w] at h3s
    simp only [Bool.false_and, Bool.and_false, Bool.false_and,
      Bool.and_self] at h3s
    simp only [audioRun, List.foldl_cons, List.foldl_nil]
    rw [h1s, h2s, h3s]
    cases ha : s.fireplaceActive <;> simp
  · intro now s ha
    simp [startFireplaceSound, startFireplaceSoundI, ha]
  · intro s ha
    simp [stopFireplaceSound, ha]

/-- A concrete pre-edge audio state: initialised, daytime, fireplace off. -/
def audioExampleIdle : AudioState :=
  { audioReady := true, wasDay := true, fireplaceActive := false,
    fireplaceFading := false, fireplaceFadeStart := 0, fireplaceVolume := 0 }

theorem audio_edge_C5_witness :
    audioExampleIdle.audioReady = true ∧
    (audioRun [((0:ℚ), false), (0, false), (0, false)] audioExampleIdle).2 = 1 :=
  ⟨rfl, audio_edge_C5.1 audioExampleIdle 0 0 0 rfl rfl⟩

/-- The fade ramp contract of the spec: floor plus (ceiling - floor) times
clamped progress. -/
def fireplaceFadeVolume (elapsed : ℚ) : ℚ :=
  FIREPLACE_VOLUME_MIN + (FIREPLACE_VOLUME_MAX - FIREPLACE_VOLUME_MIN) *
    min (elapsed / FIREPLACE_FADE_DURATION) 1

/-- Branch-normal form of Update in the steady-night fading configuration. -/
lemma audioUpdate_fade_eq (now : ℚ) (s : AudioState)
    (hr : s.audioReady = true) (hw : s.wasDay = false)
    (hf : s.fireplaceFading = true) :
    audioUpdate now false s =
      (if 1 ≤ min ((now - s.fireplaceFadeStart) / 1000 /
            FIREPLACE_FADE_DURATION) 1 then
        { s with
            wasDay := false
            fireplaceVolume := FIREPLACE_VOLUME_MAX *
              min ((now - s.fireplaceFadeStart) / 1000 /
                FIREPLACE_FADE_DURATION) 1
            fireplaceFading := false }
      else
        { s with
            wasDay := false
            fireplaceVolume := FIREPLACE_VOLUME_MAX *
              min ((now - s.fireplaceFadeStart) / 1000 /
                FIREPLACE_FADE_DURATION) 1 }) := by
  simp only [audioUpdate, audioUpdateI, hr, hw, hf, Bool.false_and,
    Bool.and_false, Bool.not_false, Bool.and_true, Bool.not_true,
    Bool.false_eq_true, if_false, ite_false]
  split_ifs <;> rfl

/-- Claim C7: while the fireplace fade-in is active (steady night), the
volume after an Update at time now equals
floor + (ceiling - floor) * min(elapsed / FIREPLACE_FADE_DURATION, 1) with
floor 0, ceiling 0.35 and duration 3 s of elapsed seconds since fade start
— a monotone linear ramp — a sample 1.5 s (1500 ms) after fade start gives
exactly 0.175, and once progress reaches 1 the fading flag is cleared with
the volume held at the ceiling. -/
theorem audio_fade_C7 :
    (∀ (now : ℚ) (s : AudioState),
      s.audioReady = true → s.wasDay = false → s.fireplaceFading = true →
      (audioUpdate now false s).fireplaceVolume =
        fireplaceFadeVolume ((now - s.fireplaceFadeStart) / 1000)
      ∧ (FIREPLACE_FADE_DURATION ≤ (now - s.fireplaceFadeStart) / 1000 →
          (audioUpdate now false s).fireplaceFading = false
          ∧ (audioUpdate now false s).fireplaceVolume = FIREPLACE_VOLUME_MAX)
      ∧ (now - s.fireplaceFadeStart = 1500 →
          (audioUpdate now false s).fireplaceVolume = 0.175))
    ∧ (∀ e1 e2 : ℚ, e1 ≤ e2 →
        fireplaceFadeVolume e1 ≤ fireplaceFadeVolume e2) := by
  constructor
  · intro now s hr hw hf
    have hvol : (audioUpdate now false s).fireplaceVolume =
        FIREPLACE_VOLUME_MAX *
          min ((now - s.fireplaceFadeStart) / 1000 / FIREPLACE_FADE_DURATION)
            1 := by
      rw [audioUpdate_fade_eq now s hr hw hf]
      split_ifs <;> rfl
    refine ⟨?_, ?_, ?_⟩
    · rw [hvol]
      norm_num [fireplaceFadeVolume, FIREPLACE_VOLUME_MIN,
        FIREPLACE_VOLUME_MAX]
    · intro hdone
      have hprog : min ((now - s.fireplaceFadeStart) / 1000 /
          FIREPLACE_FADE_DURATION) 1 = 1 := by
        rw [min_eq_right]
        rw [le_div_iff₀ (by norm_num [FIREPLACE_FADE_DURATION] : (0:ℚ) <
          FIREPLACE_FADE_DURATION)]
        linarith
      constructor
      · rw [audioUpdate_fade_eq now s hr hw hf, hprog, if_pos le_rfl]
      · rw [hvol, hprog, mul_one]
    · intro hsample
      rw [hvol, hsample]
      norm_num [FIREPLACE_VOLUME_MAX, FIREPLACE_FADE_DURATION]
  · intro e1 e2 h
    unfold fireplaceFadeVolume
    have hdur : (0:ℚ) < FIREPLACE_FADE_DURATION := by
      norm_num [FIREPLACE_FADE_DURATION]
    have hd : e1 / FIREPLACE_FADE_DURATION ≤ e2 / FIREPLACE_FADE_DURATION := by
      rw [div_le_div_iff₀ hdur hdur]
      nlinarith
    have hm : min (e1 / FIREPLACE_FADE_DURATION) 1 ≤
        min (e2 / FIREPLACE_FADE_DURATION) 1 := min_le_min hd le_rfl
    have hc : (0:ℚ) ≤ FIREPLACE_VOLUME_MAX - FIREPLACE_VOLUME_MIN := by
      norm_num [FIREPLACE_VOLUME_MAX, FIREPLACE_VOLUME_MIN]
    exact add_le_add_left (mul_le_mul_of_nonneg_left hm hc) _

/-- A concrete mid-fade audio state: initialised, steady night, fireplace
active and fading, fade started at timestamp 0 ms. -/
def audioExampleFading : AudioState :=
  { audioReady := true, wasDay := false, fireplaceActive := true,
    fireplaceFading := true, fireplaceFadeStart := 0, fireplaceVolume := 0 }

lemma audioExampleFading_sample :
    (1500:ℚ) - audioExampleFading.fireplaceFadeStart = 1500 := by
  simp [audioExampleFading]

theorem audio_fade_C7_witness :
    audioExampleFading.fireplaceFading = true ∧
    (audioUpdate 1500 false audioExampleFading).fireplaceVolume = 0.175 :=
  ⟨rfl,
    (audio_fade_C7.1 1500 audioExampleFading rfl rfl rfl).2.2
      audioExampleFading_sample⟩

end Audio

/-! ## Scene.js : per-frame light sync (Scene.js lines 147-154) -/

namespace Scene

structure SceneLights where
  ambient : ℚ
  directional : ℚ
deriving DecidableEq

/-- The light-intensity writes of Scene.Update:
directionalLight.intensity = sunVisible * lightIntensity * 2.0 and
ambientLight.intensity = 0.05 + sunVisible * lightIntensity * 0.5. -/
def updateLights (sunVisible lightIntensity : ℚ) : SceneLights :=
  { ambient := 0.05 + sunVisible * lightIntensity * 0.5
    directional := sunVisible * lightIntensity * 2.0 }

/-- Claim C10: every frame sets the ambient intensity to
0.05 + sunVisibility*lightIntensity*0.5 and the directional intensity to
sunVisibility*lightIntensity*2.0, so for non-negative inputs the ambient
intensity is at least 0.05 (never zero ambient light at night), and the
directional intensity is exactly 0 whenever sun visibility is 0. -/
theorem scene_lights_C10 :
    (∀ v i : ℚ, (updateLights v i).ambient = 0.05 + v * i * 0.5
      ∧ (updateLights v i).directional = v * i * 2.0)
    ∧ (∀ v i : ℚ, 0 ≤ v → 0 ≤ i → 0.05 ≤ (updateLights v i).ambient)
    ∧ (∀ i : ℚ, (updateLights 0 i).directional = 0) := by
  refine ⟨fun v i => ⟨rfl, rfl⟩, fun v i hv hi => ?_, fun i => ?_⟩
  · simp only [updateLights]
    nlinarith
  · simp only [updateLights]
    ring

theorem scene_lights_C10_witness :
    (0:ℚ) ≤ 1 ∧ (0.05:ℚ) ≤ (updateLights 1 1).ambient :=
  ⟨zero_le_one, scene_lights_C10.2.1 1 1 zero_le_one zero_le_one⟩

end Scene

end OceanScene
